import Mathlib

/-!
Verification development for the AI orchestration package
(packages/ai): model selection by prefix, retry/fallback candidate
construction, structured-output schema normalization, persistence
(checkpointer) lifecycle and conversation-history reconstruction.

The JavaScript/TypeScript source is shallowly embedded: pure functions
become Lean functions, thrown errors become `Except`, external
collaborators (agent invocation, checkpointer construction) become
explicit oracle parameters, and the cooperative-concurrency behaviour of
the checkpointer single-flight logic becomes a step relation on an
explicit state type.
-/

namespace AIPkg

/-! ### JavaScript string primitives

Modelled on character lists so that proofs about prefix dispatch stay
elementary. `jsStartsWith s p` is `s.startsWith(p)`; `strTruthy` and
`natTruthy` are JavaScript truthiness on optional strings / numbers
(absent, empty string and zero are falsy). -/

def charsStartWith : List Char → List Char → Bool
  | _, [] => true
  | [], _ :: _ => false
  | c :: cs, p :: ps => c == p && charsStartWith cs ps

def jsStartsWith (s p : String) : Bool :=
  charsStartWith s.toList p.toList

def strTruthy : Option String → Bool
  | none => false
  | some s => s != ""

def natTruthy : Option Nat → Bool
  | none => false
  | some v => v != 0

/-- JavaScript `s.trim()`: whitespace removed from both ends, modelled
on the character list so that it evaluates by kernel reduction. -/
def jsTrim (s : String) : String :=
  String.mk (((s.toList.dropWhile Char.isWhitespace).reverse.dropWhile
    Char.isWhitespace).reverse)

/-- JavaScript `aiModel.replace(/^openrouter\//, "")`: the regex is
anchored, so it removes the leading occurrence of the prefix and leaves
any other string unchanged. -/
def stripLeading (p s : String) : String :=
  if jsStartsWith s p then String.mk (s.toList.drop p.toList.length) else s

/-! ### Provider model constructors

Embedding of `AIModels` (src/langchain/tools.ts, current segment,
classes `gpt` / `gemini` / `openrouter`): each constructor requires a
truthy API key and otherwise builds the provider client options,
conditionally copying `maxTokens` / `temperature` (JavaScript truthiness:
zero is dropped) and, for the OpenAI-compatible constructors only,
forwarding `reasoningEffort` into `modelKwargs.reasoning_effort`.
The `gemini` constructor destructures without `reasoningEffort`, so it
never forwards it. -/

inductive ReasoningEffort where
  | low
  | medium
  | high
  deriving DecidableEq, Repr

structure LLMModelConfig where
  model : String
  apiKey : Option String := none
  maxTokens : Option Nat := none
  temperature : Option Nat := none
  reasoningEffort : Option ReasoningEffort := none
  deriving DecidableEq, Repr

inductive ProviderKind where
  | openai
  | google
  | openrouterKind
  deriving DecidableEq, Repr

structure ProviderClient where
  kind : ProviderKind
  model : String
  apiKey : String
  maxTokens : Option Nat := none
  maxOutputTokens : Option Nat := none
  temperature : Option Nat := none
  reasoningEffortKwarg : Option ReasoningEffort := none
  baseURL : Option String := none
  deriving DecidableEq, Repr

def AIModels.gpt (params : LLMModelConfig) : Except String ProviderClient :=
  if strTruthy params.apiKey = false then
    .error "OpenAI API key is not passed in the model parameters"
  else
    .ok { kind := .openai
          model := params.model
          apiKey := params.apiKey.getD ""
          maxTokens := if natTruthy params.maxTokens then params.maxTokens else none
          temperature := if natTruthy params.temperature then params.temperature else none
          reasoningEffortKwarg := params.reasoningEffort }

def AIModels.gemini (params : LLMModelConfig) : Except String ProviderClient :=
  if strTruthy params.apiKey = false then
    .error "Google Gemini API key is not passed in the model parameters"
  else
    .ok { kind := .google
          model := params.model
          apiKey := params.apiKey.getD ""
          maxOutputTokens := if natTruthy params.maxTokens then params.maxTokens else none
          temperature := if natTruthy params.temperature then params.temperature else none
          reasoningEffortKwarg := none }

def AIModels.openrouter (params : LLMModelConfig) : Except String ProviderClient :=
  if strTruthy params.apiKey = false then
    .error "OpenRouter API key is not passed in the model parameters"
  else
    .ok { kind := .openrouterKind
          model := params.model
          apiKey := params.apiKey.getD ""
          maxTokens := if natTruthy params.maxTokens then params.maxTokens else none
          temperature := if natTruthy params.temperature then params.temperature else none
          reasoningEffortKwarg := params.reasoningEffort
          baseURL := some "https://openrouter.ai/api/v1" }

/-! ### AI configuration and model resolution

Embedding of the `AI` class constructor configuration and of
`AI.getModel` (src/index.ts lines 364-395): prefix dispatch on the model
name, with the OpenRouter branch stripping the leading `openrouter/` and
passing the remainder as the routed model identifier. -/

structure AIConstructorConfig where
  googleGeminiToken : Option String := none
  openAIApiKey : Option String := none
  openRouterApiKey : Option String := none
  memory : Bool := false
  checkpointer : Bool := false
  deriving DecidableEq, Repr

structure ModelConfigParam where
  maxTokens : Option Nat := none
  temperature : Option Nat := none
  reasoningEffort : Option ReasoningEffort := none
  deriving DecidableEq, Repr

def AI.getModel (cfg : AIConstructorConfig) (aiModel : String)
    (mc : ModelConfigParam) : Except String ProviderClient :=
  let config : LLMModelConfig :=
    { model := aiModel, maxTokens := mc.maxTokens, temperature := mc.temperature }
  if jsStartsWith aiModel "gpt" then
    AIModels.gpt { config with apiKey := cfg.openAIApiKey }
  else if jsStartsWith aiModel "gemini" then
    AIModels.gemini { config with apiKey := cfg.googleGeminiToken }
  else if jsStartsWith aiModel "openrouter/" then
    AIModels.openrouter
      { config with model := stripLeading "openrouter/" aiModel
                    apiKey := cfg.openRouterApiKey }
  else
    .error "Model not supported"

/-! ### Prefix disjointness lemmas -/

lemma charsStartWith_cons {c p : Char} {cs ps : List Char} :
    charsStartWith (c :: cs) (p :: ps) = (c == p && charsStartWith cs ps) := rfl

lemma not_gpt_of_gemini (s : String) (h : jsStartsWith s "gemini" = true) :
    jsStartsWith s "gpt" = false := by
  unfold jsStartsWith at h ⊢
  rcases hl : s.toList with _ | ⟨a, _ | ⟨b, t⟩⟩ <;> rw [hl] at h <;>
    simp [charsStartWith] at h ⊢
  obtain ⟨rfl, rfl, -⟩ := h
  exact fun _ hep => absurd hep (by decide)

lemma not_gpt_of_openrouter (s : String) (h : jsStartsWith s "openrouter/" = true) :
    jsStartsWith s "gpt" = false := by
  unfold jsStartsWith at h ⊢
  rcases hl : s.toList with _ | ⟨a, t⟩ <;> rw [hl] at h <;>
    simp [charsStartWith] at h ⊢
  obtain ⟨rfl, -⟩ := h
  exact fun hog => absurd hog (by decide)

lemma charsStartWith_trans (q : List Char) : ∀ (l p : List Char),
    charsStartWith l p = true → charsStartWith p q = true →
      charsStartWith l q = true := by
  induction q with
  | nil => intro l p h1 h2; cases l <;> rfl
  | cons c qs ih =>
    intro l p h1 h2
    cases p with
    | nil => simp [charsStartWith] at h2
    | cons a ps =>
      simp [charsStartWith] at h2
      obtain ⟨hac, h2r⟩ := h2
      cases l with
      | nil => simp [charsStartWith] at h1
      | cons b ls =>
        simp [charsStartWith] at h1 ⊢
        obtain ⟨hba, h1r⟩ := h1
        exact ⟨by rw [hba, hac], ih ls ps h1r h2r⟩

lemma openrouter_of_openrouter_openai (s : String)
    (h : jsStartsWith s "openrouter/openai/" = true) :
    jsStartsWith s "openrouter/" = true := by
  unfold jsStartsWith at h ⊢
  exact charsStartWith_trans _ _ _ h (by decide)

lemma not_gemini_of_openrouter (s : String) (h : jsStartsWith s "openrouter/" = true) :
    jsStartsWith s "gemini" = false := by
  unfold jsStartsWith at h ⊢
  rcases hl : s.toList with _ | ⟨a, t⟩ <;> rw [hl] at h <;>
    simp [charsStartWith] at h ⊢
  obtain ⟨rfl, -⟩ := h
  exact fun hog => absurd hog (by decide)

/-- Claim C2: for every model-name string, resolution selects exactly the
provider matched by its prefix and never another: a `gpt`-prefixed name
yields the OpenAI client, a `gemini`-prefixed name yields the Google
client, an `openrouter/`-prefixed name strips that prefix and routes the
remainder to the OpenRouter client, and any other name fails with
"Model not supported". -/
theorem c2_model_resolution (cfg : AIConstructorConfig) (mc : ModelConfigParam)
    (name : String) :
    (jsStartsWith name "gpt" = true →
      ∀ c, AI.getModel cfg name mc = .ok c → c.kind = .openai) ∧
    (jsStartsWith name "gemini" = true →
      ∀ c, AI.getModel cfg name mc = .ok c → c.kind = .google) ∧
    (jsStartsWith name "openrouter/" = true →
      ∀ c, AI.getModel cfg name mc = .ok c →
        c.kind = .openrouterKind ∧ c.model = stripLeading "openrouter/" name) ∧
    (jsStartsWith name "gpt" = false → jsStartsWith name "gemini" = false →
      jsStartsWith name "openrouter/" = false →
      AI.getModel cfg name mc = .error "Model not supported") := by
  refine ⟨?_, ?_, ?_, ?_⟩
  · intro h c hc
    rw [AI.getModel, if_pos h] at hc
    unfold AIModels.gpt at hc
    by_cases hk : strTruthy cfg.openAIApiKey = false
    · simp [hk] at hc
    · simp [hk] at hc
      simp [← hc]
  · intro h c hc
    rw [AI.getModel, if_neg (by simp [not_gpt_of_gemini name h]), if_pos h] at hc
    unfold AIModels.gemini at hc
    by_cases hk : strTruthy cfg.googleGeminiToken = false
    · simp [hk] at hc
    · simp [hk] at hc
      simp [← hc]
  · intro h c hc
    rw [AI.getModel, if_neg (by simp [not_gpt_of_openrouter name h]),
        if_neg (by simp [not_gemini_of_openrouter name h]), if_pos h] at hc
    unfold AIModels.openrouter at hc
    by_cases hk : strTruthy cfg.openRouterApiKey = false
    · simp [hk] at hc
    · simp [hk] at hc
      simp [← hc]
  · intro h1 h2 h3
    rw [AI.getModel, if_neg (by simp [h1]), if_neg (by simp [h2]), if_neg (by simp [h3])]

/-- Witness for C2: the four branches of the resolution theorem at
concrete model names. -/
theorem c2_model_resolution_witness :
    (AI.getModel { openAIApiKey := some "k" } "gpt-4o" {} =
      .ok { kind := .openai, model := "gpt-4o", apiKey := "k" } →
      ProviderKind.openai = .openai) ∧
    (AI.getModel { googleGeminiToken := some "k" } "gemini-2.5-flash" {}).isOk = true ∧
    (AI.getModel { openRouterApiKey := some "k" } "openrouter/openai/gpt-5-nano" {}).isOk = true ∧
    AI.getModel { openAIApiKey := some "k" } "claude-3" {} = .error "Model not supported" := by
  refine ⟨?_, ?_, ?_, ?_⟩
  · intro h
    exact (c2_model_resolution { openAIApiKey := some "k" } {} "gpt-4o").1 (by decide) _ h
  · decide
  · decide
  · exact (c2_model_resolution { openAIApiKey := some "k" } {} "claude-3").2.2.2
      (by decide) (by decide) (by decide)

/-! ### Candidate model list for the fallback orchestrator -/

/-- Modelled from the spec: the candidate-list construction of the
current call orchestrator is not present under src/ — only its
declaration (the `aiModelsFallback` field of `AICallParams` in
src/@types/ai-call.ts, and the `aiModelsFallback` field of the
constructor configuration) and its unit tests are. Faithful to the spec
step: "Build candidate list: primary model followed by fallback models
(request-level fallback list overrides any orchestrator-level default
fallback list; if request-level is omitted, fall back to
orchestrator-level default; if both empty, candidate list has exactly
one entry)." An omitted list is `none`; a present list is `some`. -/
def candidateModels (primary : String) (requestFallback : Option (List String))
    (orchestratorFallback : Option (List String)) : List String :=
  primary :: (requestFallback.getD (orchestratorFallback.getD []))

/-- Claim C1: the candidate list is the primary model followed by the
fallback models; a request-level fallback list overrides the
orchestrator-level default, an omitted request-level list falls back to
the orchestrator-level default, and if both are absent or empty the
candidate list is exactly the singleton of the primary model. -/
theorem c1_candidate_list (primary : String) :
    (∀ rf orch, candidateModels primary (some rf) orch = primary :: rf) ∧
    (∀ orch, candidateModels primary none (some orch) = primary :: orch) ∧
    candidateModels primary none none = [primary] ∧
    (∀ orch, candidateModels primary (some []) orch = [primary]) ∧
    candidateModels primary none (some []) = [primary] := by
  refine ⟨fun rf orch => rfl, fun orch => rfl, rfl, fun orch => rfl, rfl⟩

/-! ### Reasoning-effort forwarding -/

def supportsReasoningEffort (aiModel : String) : Bool :=
  jsStartsWith aiModel "gpt" || jsStartsWith aiModel "openrouter/openai/"

def reasoningEffortWarning (aiModel : String) : String :=
  "O modelo \"" ++ aiModel ++ "\" não suporta reasoningEffort"

/-- Modelled from the spec: the reasoningEffort-aware provider dispatch
of the current `AI.getModel` is not present under src/ (only its unit
tests and the `AIModels` constructors it calls are; the `AI.getModel`
segment under src/index.ts predates the `reasoningEffort` option).
Faithful to the spec: "reasoningEffort in modelConfig is only forwarded
for OpenAI-family and OpenRouter-with-OpenAI-suffix models; for any
other provider, emit a non-fatal warning naming the unsupported model
and silently drop the option rather than forwarding it." The second
component of the result is the list of emitted warnings. -/
def AI.getModelWithReasoning (cfg : AIConstructorConfig) (aiModel : String)
    (mc : ModelConfigParam) : Except String ProviderClient × List String :=
  let forwarded :=
    if supportsReasoningEffort aiModel then mc.reasoningEffort else none
  let warnings :=
    if mc.reasoningEffort.isSome && !supportsReasoningEffort aiModel then
      [reasoningEffortWarning aiModel]
    else []
  let config : LLMModelConfig :=
    { model := aiModel, maxTokens := mc.maxTokens, temperature := mc.temperature
      reasoningEffort := forwarded }
  if jsStartsWith aiModel "gpt" then
    (AIModels.gpt { config with apiKey := cfg.openAIApiKey }, warnings)
  else if jsStartsWith aiModel "gemini" then
    (AIModels.gemini { config with apiKey := cfg.googleGeminiToken }, warnings)
  else if jsStartsWith aiModel "openrouter/" then
    (AIModels.openrouter
      { config with model := stripLeading "openrouter/" aiModel
                    apiKey := cfg.openRouterApiKey }, warnings)
  else
    (.error "Model not supported", warnings)

/-- Claim C5: `reasoningEffort` is forwarded to the provider only for
OpenAI-family models and OpenRouter models routed to an OpenAI
sub-provider; for any other provider a non-fatal warning naming the
unsupported model is emitted and the option is dropped rather than
forwarded (the resolution outcome is the same as if the option had never
been set, and the warning text contains the model name). -/
theorem c5_reasoning_effort (cfg : AIConstructorConfig) (mc : ModelConfigParam)
    (aiModel : String) :
    (supportsReasoningEffort aiModel = true →
      (AI.getModelWithReasoning cfg aiModel mc).2 = [] ∧
      (jsStartsWith aiModel "gpt" = true →
        ∀ c, (AI.getModelWithReasoning cfg aiModel mc).1 = .ok c →
          c.reasoningEffortKwarg = mc.reasoningEffort) ∧
      (jsStartsWith aiModel "openrouter/openai/" = true →
        ∀ c, (AI.getModelWithReasoning cfg aiModel mc).1 = .ok c →
          c.reasoningEffortKwarg = mc.reasoningEffort)) ∧
    (mc.reasoningEffort.isSome = true → supportsReasoningEffort aiModel = false →
      (AI.getModelWithReasoning cfg aiModel mc).2 = [reasoningEffortWarning aiModel] ∧
      (∀ c, (AI.getModelWithReasoning cfg aiModel mc).1 = .ok c →
        c.reasoningEffortKwarg = none) ∧
      (AI.getModelWithReasoning cfg aiModel mc).1 =
        (AI.getModelWithReasoning cfg aiModel { mc with reasoningEffort := none }).1) ∧
    reasoningEffortWarning aiModel =
      "O modelo \"" ++ aiModel ++ "\" não suporta reasoningEffort" := by
  refine ⟨?_, ?_, rfl⟩
  · intro hs
    refine ⟨?_, ?_, ?_⟩
    · rw [AI.getModelWithReasoning]
      simp only [hs]
      rcases h1 : jsStartsWith aiModel "gpt" with _ | _ <;>
        rcases h2 : jsStartsWith aiModel "gemini" with _ | _ <;>
          rcases h3 : jsStartsWith aiModel "openrouter/" with _ | _ <;>
            simp [h1, h2, h3]
    · intro hgpt c hc
      rw [AI.getModelWithReasoning] at hc
      simp only [hgpt, if_pos, hs, if_true] at hc
      unfold AIModels.gpt at hc
      by_cases hk : strTruthy cfg.openAIApiKey = false
      · simp [hk] at hc
      · simp [hk] at hc
        simp [← hc]
    · intro hro c hc
      have hor : jsStartsWith aiModel "openrouter/" = true :=
        openrouter_of_openrouter_openai aiModel hro
      have hgpt : jsStartsWith aiModel "gpt" = false :=
        not_gpt_of_openrouter aiModel hor
      have hgem : jsStartsWith aiModel "gemini" = false :=
        not_gemini_of_openrouter aiModel hor
      rw [AI.getModelWithReasoning] at hc
      simp only [hgpt, hgem, hor, hs, Bool.false_eq_true, if_false, if_true] at hc
      unfold AIModels.openrouter at hc
      by_cases hk : strTruthy cfg.openRouterApiKey = false
      · simp [hk] at hc
      · simp [hk] at hc
        simp [← hc]
  · intro hre hs
    have hgpt : jsStartsWith aiModel "gpt" = false := by
      rcases h : jsStartsWith aiModel "gpt" with _ | _
      · rfl
      · have hsup : supportsReasoningEffort aiModel = true := by
          simp [supportsReasoningEffort, h]
        rw [hsup] at hs
        cases hs
    refine ⟨?_, ?_, ?_⟩
    · rw [AI.getModelWithReasoning]
      simp only [hs, hre]
      rcases h2 : jsStartsWith aiModel "gemini" with _ | _ <;>
        rcases h3 : jsStartsWith aiModel "openrouter/" with _ | _ <;>
          simp [hgpt, h2, h3]
    · intro c hc
      rw [AI.getModelWithReasoning] at hc
      simp only [hgpt, hs, Bool.false_eq_true, if_false] at hc
      by_cases hg : jsStartsWith aiModel "gemini" = true
      · simp only [hg, if_pos, if_true] at hc
        unfold AIModels.gemini at hc
        by_cases hk : strTruthy cfg.googleGeminiToken = false
        · simp [hk] at hc
        · simp [hk] at hc
          simp [← hc]
      · simp only [hg, Bool.false_eq_true, if_false] at hc
        by_cases ho : jsStartsWith aiModel "openrouter/" = true
        · simp only [ho, if_pos, if_true] at hc
          unfold AIModels.openrouter at hc
          by_cases hk : strTruthy cfg.openRouterApiKey = false
          · simp [hk] at hc
          · simp [hk] at hc
            simp [← hc]
        · simp [ho] at hc
    · rw [AI.getModelWithReasoning, AI.getModelWithReasoning]
      rcases hg : jsStartsWith aiModel "gemini" with _ | _ <;>
        rcases ho : jsStartsWith aiModel "openrouter/" with _ | _ <;>
          simp [hgpt, hg, ho, hs]

/-- Witness for C5: a supported model forwards the option with no
warning; a Gemini model and a non-OpenAI OpenRouter model warn by name
and drop the option. -/
theorem c5_reasoning_effort_witness :
    ((AI.getModelWithReasoning { openAIApiKey := some "k" } "gpt-5-nano"
        { reasoningEffort := some .medium }).2 = [] ∧
      (∀ c, (AI.getModelWithReasoning { openAIApiKey := some "k" } "gpt-5-nano"
          { reasoningEffort := some .medium }).1 = .ok c →
        c.reasoningEffortKwarg = some .medium)) ∧
    (∀ c, (AI.getModelWithReasoning { openRouterApiKey := some "k" }
        "openrouter/openai/gpt-5-nano" { reasoningEffort := some .low }).1 = .ok c →
      c.reasoningEffortKwarg = some .low) ∧
    ((AI.getModelWithReasoning { googleGeminiToken := some "k" } "gemini-2.5-flash"
        { reasoningEffort := some .high }).2 =
      [reasoningEffortWarning "gemini-2.5-flash"] ∧
      (∀ c, (AI.getModelWithReasoning { googleGeminiToken := some "k" } "gemini-2.5-flash"
        { reasoningEffort := some .high }).1 = .ok c →
        c.reasoningEffortKwarg = none)) := by
  refine ⟨?_, ?_, ?_⟩
  · have h := (c5_reasoning_effort { openAIApiKey := some "k" }
      { reasoningEffort := some .medium } "gpt-5-nano").1 (by decide)
    exact ⟨h.1, h.2.1 (by decide)⟩
  · exact ((c5_reasoning_effort { openRouterApiKey := some "k" }
      { reasoningEffort := some .low } "openrouter/openai/gpt-5-nano").1
      (by decide)).2.2 (by decide)
  · have h := (c5_reasoning_effort { googleGeminiToken := some "k" }
      { reasoningEffort := some .high } "gemini-2.5-flash").2.1 (by decide) (by decide)
    exact ⟨h.1, h.2.1⟩

/-! ### The call operation

Embedding of `AI.call` (src/index.ts lines 248-274) together with
`AI.ensureThreadIdWhenCheckpointer` (lines 237-246) and
`AI.getCheckpointer` (lines 225-235). External effects are oracle
parameters: `construction` is the outcome of `createCheckpointer` and
`invokeResult` the outcome of `agent.invoke`. The second component of
the result is the trace of external events, in order, so that
"before any provider client is constructed and before any model
invocation" is the absence of those events. -/

inductive RespContent where
  | str (s : String)
  | nonString
  deriving DecidableEq, Repr

structure RespMessage where
  content : Option RespContent := none
  deriving DecidableEq, Repr

structure InvokeResponse where
  messages : List RespMessage
  deriving DecidableEq, Repr

inductive CallEvent where
  | providerConstructed (kind : ProviderKind)
  | invoked (withThreadId : Bool)
  deriving DecidableEq, Repr

inductive CallError where
  | missingThreadId (msg : String)
  | checkpointerFailure (msg : String)
  | modelResolution (msg : String)
  | invocation (msg : String)
  | validation (msg : String)
  deriving DecidableEq, Repr

structure CallOutput where
  text : String
  messages : List RespMessage
  deriving DecidableEq, Repr

def threadIdRequiredMsg : String :=
  "threadId é obrigatório quando memory ou checkpointer está configurado. Passe threadId em AICallParams para identificar a conversa."

def emptyResponseText : String := "Empty response from the model"

structure AICallParams where
  aiModel : String
  modelConfig : ModelConfigParam := {}
  maxRetries : Nat := 3
  threadId : Option String := none
  deriving DecidableEq, Repr

/-- Text extraction of `AI.call`: the content of the last response
message is used when it is a string whose trim is truthy (non-empty);
otherwise the fixed placeholder is substituted. -/
def lastContentText (messages : List RespMessage) : String :=
  match messages.getLast? with
  | some m =>
    match m.content with
    | some (.str s) => if jsTrim s != "" then s else emptyResponseText
    | _ => emptyResponseText
  | none => emptyResponseText

/-- Outcome of `AI.getCheckpointer`: an explicit checkpointer handle
wins; otherwise the memory configuration drives one construction
(`construction` models the `createCheckpointer` promise outcome); with
neither, no checkpointer is used. Handle values are opaque naturals. -/
def AI.getCheckpointerOutcome (cfg : AIConstructorConfig)
    (construction : Except String Nat) : Except String (Option Nat) :=
  if cfg.checkpointer then .ok (some 0)
  else if cfg.memory then construction.map some
  else .ok none

def AI.call (cfg : AIConstructorConfig) (params : AICallParams)
    (construction : Except String Nat)
    (invokeResult : Except String InvokeResponse) :
    Except CallError CallOutput × List CallEvent :=
  if (cfg.checkpointer || cfg.memory) && !strTruthy params.threadId then
    (.error (.missingThreadId threadIdRequiredMsg), [])
  else
    match AI.getCheckpointerOutcome cfg construction with
    | .error e => (.error (.checkpointerFailure e), [])
    | .ok cp =>
      match AI.getModel cfg params.aiModel params.modelConfig with
      | .error e => (.error (.modelResolution e), [])
      | .ok client =>
        let usedThread := strTruthy params.threadId && cp.isSome
        match invokeResult with
        | .error e =>
          (.error (.invocation e), [.providerConstructed client.kind, .invoked usedThread])
        | .ok resp =>
          (.ok { text := lastContentText resp.messages, messages := resp.messages },
            [.providerConstructed client.kind, .invoked usedThread])

/-- Claim C3: with a memory configuration or an explicit checkpointer, a
call whose threadId is absent fails with the fatal configuration error
and an empty event trace — before any provider client is constructed
and before any model invocation; without persistence, a missing
threadId never produces that error. -/
theorem c3_threadid_precondition (cfg : AIConstructorConfig) (params : AICallParams)
    (construction : Except String Nat) (invokeResult : Except String InvokeResponse) :
    ((cfg.checkpointer || cfg.memory) = true → params.threadId = none →
      AI.call cfg params construction invokeResult =
        (.error (.missingThreadId threadIdRequiredMsg), [])) ∧
    ((cfg.checkpointer || cfg.memory) = false →
      ∀ m, (AI.call cfg params construction invokeResult).1 ≠
        .error (.missingThreadId m)) := by
  constructor
  · intro hp ht
    rw [AI.call, if_pos (by simp [hp, ht, strTruthy])]
  · intro hp m
    rw [AI.call, if_neg (by simp [hp])]
    rcases AI.getCheckpointerOutcome cfg construction with e | cp
    · simp
    · rcases AI.getModel cfg params.aiModel params.modelConfig with e | client
      · simp
      · rcases invokeResult with e | resp <;> simp

/-- Witness for C3: a memory-configured instance with no threadId raises
the configuration error with nothing constructed or invoked; without
persistence the same request never raises it. -/
theorem c3_threadid_precondition_witness :
    AI.call { memory := true } { aiModel := "gpt-4" } (.ok 1)
        (.ok { messages := [] }) =
      (.error (.missingThreadId threadIdRequiredMsg), []) ∧
    ∀ m, (AI.call { openAIApiKey := some "k" } { aiModel := "gpt-4" } (.ok 1)
        (.ok { messages := [] })).1 ≠ .error (.missingThreadId m) := by
  constructor
  · exact (c3_threadid_precondition { memory := true } { aiModel := "gpt-4" }
      (.ok 1) (.ok { messages := [] })).1 (by decide) rfl
  · exact (c3_threadid_precondition { openAIApiKey := some "k" }
      { aiModel := "gpt-4" } (.ok 1) (.ok { messages := [] })).2 (by decide)

/-- Counterexample to Claim C6 as stated: the last response content
" " is a non-empty string, yet the returned text is the placeholder
"Empty response from the model", not that content — the code substitutes
the placeholder whenever the trimmed content is empty, not only for
null, undefined, empty or non-string content. -/
theorem c6_counterexample :
    (" " : String) ≠ "" ∧
    (AI.call { openAIApiKey := some "k" } { aiModel := "gpt-4" } (.ok 1)
        (.ok { messages := [{ content := some (.str " ") }] })).1 =
      .ok { text := emptyResponseText
            messages := [{ content := some (.str " ") }] } ∧
    emptyResponseText ≠ " " := by
  refine ⟨by decide, rfl, by decide⟩

/-- Claim C6, amended: on a successful invocation no error is thrown,
the messages array is returned unchanged, and the returned text equals
the last message content exactly when that content is a string whose
whitespace-trimmed form is non-empty; for null, undefined, empty,
whitespace-only or non-string content (or no messages at all) the fixed
placeholder is substituted instead. -/
theorem c6_empty_response_policy (cfg : AIConstructorConfig) (params : AICallParams)
    (construction : Except String Nat) (resp : InvokeResponse) (out : CallOutput)
    (h : (AI.call cfg params construction (.ok resp)).1 = .ok out) :
    out.messages = resp.messages ∧
    out.text = lastContentText resp.messages ∧
    (∀ m s, resp.messages.getLast? = some m → m.content = some (.str s) →
      jsTrim s ≠ "" → lastContentText resp.messages = s) ∧
    (∀ m s, resp.messages.getLast? = some m → m.content = some (.str s) →
      jsTrim s = "" → lastContentText resp.messages = emptyResponseText) ∧
    (∀ m, resp.messages.getLast? = some m → m.content = some .nonString →
      lastContentText resp.messages = emptyResponseText) ∧
    (∀ m, resp.messages.getLast? = some m → m.content = none →
      lastContentText resp.messages = emptyResponseText) ∧
    (resp.messages.getLast? = none →
      lastContentText resp.messages = emptyResponseText) := by
  have hout : out = { text := lastContentText resp.messages, messages := resp.messages } := by
    rw [AI.call] at h
    by_cases hb : ((cfg.checkpointer || cfg.memory) && !strTruthy params.threadId) = true
    · rw [if_pos hb] at h
      simp at h
    · rw [if_neg hb] at h
      rcases hcpo : AI.getCheckpointerOutcome cfg construction with e | cp <;>
        rw [hcpo] at h
      · simp at h
      · rcases hgm : AI.getModel cfg params.aiModel params.modelConfig with e | client <;>
          rw [hgm] at h
        · simp at h
        · simp at h
          exact h.symm
  subst hout
  refine ⟨rfl, rfl, ?_, ?_, ?_, ?_, ?_⟩
  · intro m s hm hc hs
    simp [lastContentText, hm, hc, hs]
  · intro m s hm hc hs
    simp [lastContentText, hm, hc, hs]
  · intro m hm hc
    simp [lastContentText, hm, hc]
  · intro m hm hc
    simp [lastContentText, hm, hc]
  · intro hn
    simp [lastContentText, hn]

/-- Witness for C6 amended: a call whose last message content is the
string "hello " returns that content verbatim with the messages
intact. -/
theorem c6_empty_response_policy_witness :
    (CallOutput.mk (lastContentText [{ content := some (.str "hello ") }])
        [{ content := some (.str "hello ") }]).messages =
      [{ content := some (.str "hello ") }] ∧
    lastContentText [{ content := some (.str "hello ") }] = "hello " := by
  have h := c6_empty_response_policy { openAIApiKey := some "k" }
    { aiModel := "gpt-4" } (.ok 1)
    { messages := [{ content := some (.str "hello ") }] }
    { text := lastContentText [{ content := some (.str "hello ") }]
      messages := [{ content := some (.str "hello ") }] } rfl
  refine ⟨h.1, ?_⟩
  exact h.2.2.1 { content := some (.str "hello ") } "hello " rfl rfl (by decide)

/-! ### Checkpointer single-flight lifecycle

Embedding of `AI.getCheckpointer` (src/index.ts lines 225-235) and
`AIMemory.getCheckpointer` (src/langchain/checkpointers.ts lines 73-80)
as a step relation over the cooperative (single-threaded, suspension
only at await) execution model. A `request` event runs the synchronous
prologue of one `getCheckpointer` call atomically: return the cached
handle if set, otherwise start the construction exactly when no promise
is stored, and join the waiters of the stored promise. A `resolve`
event is the in-flight construction promise settling with handle `h0`:
every waiter resumes with that handle and the cached field is assigned.
`explicitCheckpointer` is the constructor-supplied handle (set before
any request); `hasMemory := true` with no explicit handle also models
`AIMemory`, whose `getCheckpointer` has no memory guard. -/

structure CPConfig where
  explicitCheckpointer : Option Nat := none
  hasMemory : Bool := false
  deriving DecidableEq, Repr

structure CPState where
  checkpointer : Option Nat
  promiseStarted : Bool
  pending : Nat
  constructions : Nat
  returned : List (Option Nat)
  deriving DecidableEq, Repr

def CPState.init (cfg : CPConfig) : CPState :=
  { checkpointer := cfg.explicitCheckpointer, promiseStarted := false,
    pending := 0, constructions := 0, returned := [] }

inductive CPEvent where
  | request
  | resolve
  deriving DecidableEq, Repr

def cpStep (cfg : CPConfig) (h0 : Nat) (s : CPState) : CPEvent → CPState
  | .request =>
    match s.checkpointer with
    | some h => { s with returned := s.returned ++ [some h] }
    | none =>
      if cfg.hasMemory then
        if s.promiseStarted then { s with pending := s.pending + 1 }
        else
          { s with promiseStarted := true, constructions := s.constructions + 1,
                   pending := s.pending + 1 }
      else { s with returned := s.returned ++ [none] }
  | .resolve =>
    if s.promiseStarted then
      { s with checkpointer := some h0, pending := 0,
               returned := s.returned ++ List.replicate s.pending (some h0) }
    else s

def cpRun (cfg : CPConfig) (h0 : Nat) (events : List CPEvent) : CPState :=
  events.foldl (cpStep cfg h0) (CPState.init cfg)

/-- The unique handle every getCheckpointer request can deliver for a
given configuration: the explicit constructor-supplied handle if any,
else the constructed handle when memory is configured, else nothing. -/
def cpExpected (cfg : CPConfig) (h0 : Nat) : Option Nat :=
  match cfg.explicitCheckpointer with
  | some e => some e
  | none => if cfg.hasMemory then some h0 else none

def CPInv (cfg : CPConfig) (h0 : Nat) (s : CPState) : Prop :=
  s.constructions = (if s.promiseStarted then 1 else 0) ∧
  (s.promiseStarted = true → cfg.explicitCheckpointer = none ∧ cfg.hasMemory = true) ∧
  (s.checkpointer = cfg.explicitCheckpointer ∨
    (s.checkpointer = some h0 ∧ cfg.explicitCheckpointer = none ∧
      cfg.hasMemory = true ∧ s.promiseStarted = true)) ∧
  (∀ r ∈ s.returned, r = cpExpected cfg h0)

lemma cpInv_init (cfg : CPConfig) (h0 : Nat) : CPInv cfg h0 (CPState.init cfg) := by
  refine ⟨rfl, by simp [CPState.init], Or.inl rfl, by simp [CPState.init]⟩

lemma cpExpected_mem (cfg : CPConfig) (h0 : Nat)
    (he : cfg.explicitCheckpointer = none) (hm : cfg.hasMemory = true) :
    cpExpected cfg h0 = some h0 := by
  rw [cpExpected, he]
  simp [hm]

lemma cpInv_step (cfg : CPConfig) (h0 : Nat) (s : CPState) (e : CPEvent)
    (h : CPInv cfg h0 s) : CPInv cfg h0 (cpStep cfg h0 s e) := by
  obtain ⟨hc, hps, hcp, hret⟩ := h
  cases e
  case request =>
    rcases hck : s.checkpointer with _ | hdl
    · rcases hm : cfg.hasMemory with _ | _
      · -- no memory configured: the request returns no checkpointer
        have hs2 : cpStep cfg h0 s .request =
            { s with returned := s.returned ++ [none] } := by
          rw [cpStep, hck]
          simp [hm]
        rw [hs2]
        have hne : cfg.explicitCheckpointer = none := by
          rcases hcp with h1 | h2
          · rw [← h1, hck]
          · rw [h2.2.2.1] at hm
            cases hm
        refine ⟨hc, hps, hcp, ?_⟩
        intro r hr
        rcases List.mem_append.1 hr with h1 | h1
        · exact hret r h1
        · rw [List.mem_singleton.1 h1, cpExpected, hne]
          simp [hm]
      · rcases hp : s.promiseStarted with _ | _
        · -- first request: the construction starts here, exactly once
          have hs2 : cpStep cfg h0 s .request =
              { s with promiseStarted := true,
                       constructions := s.constructions + 1,
                       pending := s.pending + 1 } := by
            rw [cpStep, hck]
            simp [hm, hp]
          rw [hs2]
          have hne : cfg.explicitCheckpointer = none := by
            rcases hcp with h1 | h2
            · rw [← h1, hck]
            · rw [h2.2.2.2] at hp
              cases hp
          have hc0 : s.constructions = 0 := by
            rw [hc, hp]
            rfl
          refine ⟨?_, fun _ => ⟨hne, hm⟩, ?_, hret⟩
          · show s.constructions + 1 = if true = true then 1 else 0
            rw [hc0]
            rfl
          · left
            show s.checkpointer = cfg.explicitCheckpointer
            rw [hck, hne]
        · -- a later request before resolution joins the waiters
          have hs2 : cpStep cfg h0 s .request =
              { s with pending := s.pending + 1 } := by
            rw [cpStep, hck]
            simp [hm, hp]
          rw [hs2]
          exact ⟨hc, hps, hcp, hret⟩
    · -- the cached handle is returned immediately
      have hs2 : cpStep cfg h0 s .request =
          { s with returned := s.returned ++ [some hdl] } := by
        rw [cpStep, hck]
      rw [hs2]
      refine ⟨hc, hps, hcp, ?_⟩
      intro r hr
      rcases List.mem_append.1 hr with h1 | h1
      · exact hret r h1
      · rw [List.mem_singleton.1 h1]
        rcases hcp with hq | hq
        · rw [cpExpected, ← hq, hck]
        · rw [cpExpected_mem cfg h0 hq.2.1 hq.2.2.1]
          rw [hck] at hq
          exact hq.1
  case resolve =>
    rcases hp : s.promiseStarted with _ | _
    · have hs2 : cpStep cfg h0 s .resolve = s := by
        rw [cpStep]
        simp [hp]
      rw [hs2]
      exact ⟨hc, hps, hcp, hret⟩
    · have hs2 : cpStep cfg h0 s .resolve =
          { s with checkpointer := some h0, pending := 0,
                   returned := s.returned ++ List.replicate s.pending (some h0) } := by
        rw [cpStep]
        simp [hp]
      rw [hs2]
      obtain ⟨he, hm⟩ := hps hp
      refine ⟨?_, fun _ => ⟨he, hm⟩, Or.inr ⟨rfl, he, hm, hp⟩, ?_⟩
      · show s.constructions = if s.promiseStarted = true then 1 else 0
        exact hc
      · intro r hr
        rcases List.mem_append.1 hr with h1 | h1
        · exact hret r h1
        · rw [List.eq_of_mem_replicate h1, cpExpected_mem cfg h0 he hm]

lemma cpInv_run_aux (cfg : CPConfig) (h0 : Nat) :
    ∀ (events : List CPEvent) (s : CPState), CPInv cfg h0 s →
      CPInv cfg h0 (events.foldl (cpStep cfg h0) s)
  | [], _, h => h
  | e :: rest, s, h => cpInv_run_aux cfg h0 rest _ (cpInv_step cfg h0 s e h)

/-- Claim C9: over any interleaving of getCheckpointer requests and the
promise resolution, at most one checkpointer construction is ever
started for the lifetime of the instance, and every delivered result is
the same single handle determined by the configuration (the explicit
handle, or the one constructed handle, or no checkpointer). -/
theorem c9_single_flight (cfg : CPConfig) (h0 : Nat) (events : List CPEvent) :
    (cpRun cfg h0 events).constructions ≤ 1 ∧
    ∀ r ∈ (cpRun cfg h0 events).returned, r = cpExpected cfg h0 := by
  have h := cpInv_run_aux cfg h0 events (CPState.init cfg) (cpInv_init cfg h0)
  refine ⟨?_, h.2.2.2⟩
  unfold cpRun
  rw [h.1]
  by_cases hp : (List.foldl (cpStep cfg h0) (CPState.init cfg) events).promiseStarted = true <;>
    simp [hp]

/-- Witness for C9: two requests racing before the resolution, then a
request after it — one construction, and every caller receives the
constructed handle. -/
theorem c9_single_flight_witness :
    (cpRun { hasMemory := true } 7 [.request, .request, .resolve, .request]).constructions ≤ 1 ∧
    ∀ r ∈ (cpRun { hasMemory := true } 7 [.request, .request, .resolve, .request]).returned,
      r = cpExpected { hasMemory := true } 7 :=
  c9_single_flight { hasMemory := true } 7 [.request, .request, .resolve, .request]

/-! ### Structured-output schemas

A small AST for the Zod schemas the package manipulates.
`zoptional` is a field produced by `.optional()` (the value may be
absent); a field whose type is not `zoptional` is required at the schema
level. `zunknown` stands for any other schema form the normalizer does
not inspect. -/

inductive ZType where
  | zstring
  | znumber
  | znull
  | zunion (variants : List ZType)
  | zoptional (inner : ZType)
  | zobject (shape : List (String × ZType))
  | zunknown

/-- Per-field transform of `AI.normalizeSchemaForOpenAI`
(src/index.ts lines 332-341): an optional field becomes the required
union of its inner type with null; every other field is kept. -/
def normalizeField : ZType → ZType
  | .zoptional inner => .zunion [inner, .znull]
  | t => t

/-- Branch of `normalizeSchemaForOpenAI` taken once the model check has
passed: the `schema instanceof z.ZodObject` test and the shape
rebuild. -/
def normalizeObjectSchema : ZType → ZType
  | .zobject shape => .zobject (shape.map (fun kv => (kv.1, normalizeField kv.2)))
  | s => s

/-- Embedding of `AI.normalizeSchemaForOpenAI` (src/index.ts lines
313-347): applies only for model names starting with `gpt` or
`openrouter/openai/`; rebuilds an object schema with every top-level
optional field replaced by the union with null; returns every other
schema unchanged. -/
def normalizeSchemaForOpenAI (schema : ZType) (aiModel : String) : ZType :=
  if !(jsStartsWith aiModel "gpt" || jsStartsWith aiModel "openrouter/openai/") then
    schema
  else
    normalizeObjectSchema schema

lemma normalizeField_of_not_optional {t : ZType}
    (h : ∀ u, t ≠ ZType.zoptional u) : normalizeField t = t := by
  cases t with
  | zoptional u => exact absurd rfl (h u)
  | zstring => rfl
  | znumber => rfl
  | znull => rfl
  | zunion v => rfl
  | zobject s => rfl
  | zunknown => rfl

/-- Claim C4: schema normalization replaces each top-level optional
field with a required field whose type is the union of the original type
and null; it applies only for model names starting with `gpt` or
`openrouter/openai/`; non-object schemas and object schemas with no
optional field pass through structurally unchanged. -/
theorem c4_schema_normalization (aiModel : String) (schema : ZType)
    (shape : List (String × ZType)) :
    (jsStartsWith aiModel "gpt" = false →
      jsStartsWith aiModel "openrouter/openai/" = false →
      normalizeSchemaForOpenAI schema aiModel = schema) ∧
    ((∀ sh, schema ≠ ZType.zobject sh) →
      normalizeSchemaForOpenAI schema aiModel = schema) ∧
    ((∀ kv ∈ shape, ∀ t, kv.2 ≠ ZType.zoptional t) →
      normalizeSchemaForOpenAI (.zobject shape) aiModel = .zobject shape) ∧
    (jsStartsWith aiModel "gpt" = true ∨
        jsStartsWith aiModel "openrouter/openai/" = true →
      normalizeSchemaForOpenAI (.zobject shape) aiModel =
        .zobject (shape.map (fun kv => (kv.1, normalizeField kv.2))) ∧
      (∀ k t, (k, ZType.zoptional t) ∈ shape →
        (k, ZType.zunion [t, ZType.znull]) ∈
          shape.map (fun kv => (kv.1, normalizeField kv.2))) ∧
      (∀ kv ∈ shape, (∀ t, kv.2 ≠ ZType.zoptional t) →
        kv ∈ shape.map (fun kv => (kv.1, normalizeField kv.2)))) := by
  refine ⟨?_, ?_, ?_, ?_⟩
  · intro h1 h2
    rw [normalizeSchemaForOpenAI, if_pos (by simp [h1, h2])]
  · intro hno
    rw [normalizeSchemaForOpenAI]
    split
    · rfl
    · cases schema with
      | zobject sh => exact absurd rfl (hno sh)
      | zstring => rfl
      | znumber => rfl
      | znull => rfl
      | zunion v => rfl
      | zoptional u => rfl
      | zunknown => rfl
  · intro hno
    rw [normalizeSchemaForOpenAI]
    have hmap : shape.map (fun kv => (kv.1, normalizeField kv.2)) = shape := by
      have hpt : ∀ kv ∈ shape,
          (fun kv : String × ZType => (kv.1, normalizeField kv.2)) kv = id kv := by
        intro kv hkv
        show (kv.1, normalizeField kv.2) = kv
        rw [normalizeField_of_not_optional (hno kv hkv)]
      rw [List.map_congr_left hpt, List.map_id]
    split
    · rfl
    · show ZType.zobject (shape.map (fun kv => (kv.1, normalizeField kv.2))) =
        ZType.zobject shape
      rw [hmap]
  · intro hmodel
    have hiso : (jsStartsWith aiModel "gpt" ||
        jsStartsWith aiModel "openrouter/openai/") = true := by
      rcases hmodel with h | h <;> simp [h]
    refine ⟨by rw [normalizeSchemaForOpenAI, if_neg (by simp [hiso])]; rfl, ?_, ?_⟩
    · intro k t hmem
      have : (fun kv : String × ZType => (kv.1, normalizeField kv.2))
          (k, ZType.zoptional t) = (k, ZType.zunion [t, ZType.znull]) := rfl
      rw [← this]
      exact List.mem_map_of_mem _ hmem
    · intro kv hkv hno
      have hfix : (fun kv : String × ZType => (kv.1, normalizeField kv.2)) kv = kv := by
        show (kv.1, normalizeField kv.2) = kv
        rw [normalizeField_of_not_optional hno]
      rw [← hfix]
      exact List.mem_map_of_mem _ hkv

/-- Witness for C4: a Gemini model leaves the schema untouched; a
non-object schema and an all-required object pass through under a GPT
model; and under a GPT model the optional field `b` becomes the required
union with null. -/
theorem c4_schema_normalization_witness :
    normalizeSchemaForOpenAI
        (ZType.zobject [("a", .zstring), ("b", .zoptional .znumber)])
        "gemini-2.5-flash" =
      ZType.zobject [("a", .zstring), ("b", .zoptional .znumber)] ∧
    normalizeSchemaForOpenAI .zstring "gpt-4" = .zstring ∧
    normalizeSchemaForOpenAI (ZType.zobject [("a", .zstring)]) "gpt-4" =
      ZType.zobject [("a", .zstring)] ∧
    normalizeSchemaForOpenAI
        (ZType.zobject [("a", .zstring), ("b", .zoptional .znumber)]) "gpt-4" =
      ZType.zobject [("a", .zstring), ("b", .zunion [.znumber, .znull])] := by
  refine ⟨?_, ?_, ?_, ?_⟩
  · exact (c4_schema_normalization "gemini-2.5-flash"
      (ZType.zobject [("a", .zstring), ("b", .zoptional .znumber)]) []).1
      (by decide) (by decide)
  · exact (c4_schema_normalization "gpt-4" .zstring []).2.1
      (fun sh h => ZType.noConfusion h)
  · refine (c4_schema_normalization "gpt-4" (ZType.zobject [("a", .zstring)])
      [("a", .zstring)]).2.2.1 ?_
    intro kv hkv t
    rw [List.mem_singleton] at hkv
    subst hkv
    exact fun h => ZType.noConfusion h
  · exact ((c4_schema_normalization "gpt-4" .zunknown
      [("a", .zstring), ("b", .zoptional .znumber)]).2.2.2
      (Or.inl (by decide))).1

/-! ### Structured-output validation

A minimal model of JSON values and of Zod acceptance, enough to settle
which structured responses pass `outputSchema.parse`: an object field
typed `zoptional t` accepts an absent key or a value accepted by `t`
(null is not absent); `zunion` accepts a value any variant accepts;
unknown keys are irrelevant to acceptance. Value transformation (key
stripping) performed by a real parse is not modelled — only acceptance,
which is what decides whether the call throws. -/

inductive JVal where
  | jnull
  | jnum (n : Int)
  | jstr (s : String)
  | jbool (b : Bool)
  | jobj (fields : List (String × JVal))

def jlookup (k : String) : List (String × JVal) → Option JVal
  | [] => none
  | (k2, v) :: rest => if k2 = k then some v else jlookup k rest

mutual

def zaccepts : ZType → Option JVal → Bool
  | .zstring, some (.jstr _) => true
  | .zstring, _ => false
  | .znumber, some (.jnum _) => true
  | .znumber, _ => false
  | .znull, some .jnull => true
  | .znull, _ => false
  | .zunion ts, v => zacceptsAny ts v
  | .zoptional _, none => true
  | .zoptional t, some v => zaccepts t (some v)
  | .zobject shape, some (.jobj fields) => zacceptsShape shape fields
  | .zobject _, _ => false
  | .zunknown, _ => true

def zacceptsAny : List ZType → Option JVal → Bool
  | [], _ => false
  | t :: ts, v => zaccepts t v || zacceptsAny ts v

def zacceptsShape : List (String × ZType) → List (String × JVal) → Bool
  | [], _ => true
  | kv :: rest, fields => zaccepts kv.2 (jlookup kv.1 fields) && zacceptsShape rest fields

end

/-- Embedding of `AI.callStructuredOutput` (src/index.ts lines 276-306):
after the threadId precondition and checkpointer resolution, the output
schema is normalized for the model and handed to the agent as the
response format (`provider` receives exactly the normalized schema and
yields the `structuredResponse`, `none` modelling undefined); the
response is then parsed against the original, un-normalized schema, and
a parse failure throws with no value returned. -/
def AI.callStructuredOutput (cfg : AIConstructorConfig) (params : AICallParams)
    (outputSchema : ZType) (construction : Except String Nat)
    (provider : ZType → Except String (Option JVal)) :
    Except CallError (Option JVal) × List CallEvent :=
  if (cfg.checkpointer || cfg.memory) && !strTruthy params.threadId then
    (.error (.missingThreadId threadIdRequiredMsg), [])
  else
    match AI.getCheckpointerOutcome cfg construction with
    | .error e => (.error (.checkpointerFailure e), [])
    | .ok cp =>
      match AI.getModel cfg params.aiModel params.modelConfig with
      | .error e => (.error (.modelResolution e), [])
      | .ok client =>
        let usedThread := strTruthy params.threadId && cp.isSome
        match provider (normalizeSchemaForOpenAI outputSchema params.aiModel) with
        | .error e =>
          (.error (.invocation e), [.providerConstructed client.kind, .invoked usedThread])
        | .ok structuredResponse =>
          if zaccepts outputSchema structuredResponse then
            (.ok structuredResponse,
              [.providerConstructed client.kind, .invoked usedThread])
          else
            (.error (.validation "structured response failed output schema validation"),
              [.providerConstructed client.kind, .invoked usedThread])

/-- Claim C10: in a structured-output call the provider is handed the
normalized schema (two providers agreeing on it make the call
indistinguishable), yet the returned value is validated against the
original schema — any accepted value passes the original schema, a
response rejected by the original schema throws even when the normalized
schema accepts it, and at the concrete instance of an OpenAI-family
model with an optional field, a null field value is permitted by the
normalized schema sent out but fails the final validation. -/
theorem c10_structured_output_validation (cfg : AIConstructorConfig)
    (params : AICallParams) (outputSchema : ZType)
    (construction : Except String Nat)
    (p q : ZType → Except String (Option JVal)) :
    (p (normalizeSchemaForOpenAI outputSchema params.aiModel) =
        q (normalizeSchemaForOpenAI outputSchema params.aiModel) →
      AI.callStructuredOutput cfg params outputSchema construction p =
        AI.callStructuredOutput cfg params outputSchema construction q) ∧
    (∀ v, (AI.callStructuredOutput cfg params outputSchema construction p).1 = .ok v →
      zaccepts outputSchema v = true) ∧
    (∀ v, p (normalizeSchemaForOpenAI outputSchema params.aiModel) = .ok v →
      zaccepts outputSchema v = false →
      (AI.callStructuredOutput cfg params outputSchema construction p).1 =
        .error (.validation "structured response failed output schema validation") ∨
      (AI.callStructuredOutput cfg params outputSchema construction p).1 =
        .error (.missingThreadId threadIdRequiredMsg) ∨
      (∃ e, (AI.callStructuredOutput cfg params outputSchema construction p).1 =
        .error (.checkpointerFailure e)) ∨
      (∃ e, (AI.callStructuredOutput cfg params outputSchema construction p).1 =
        .error (.modelResolution e))) ∧
    zaccepts
      (normalizeSchemaForOpenAI (ZType.zobject [("b", .zoptional .znumber)]) "gpt-4")
      (some (.jobj [("b", .jnull)])) = true ∧
    zaccepts (ZType.zobject [("b", .zoptional .znumber)])
      (some (.jobj [("b", .jnull)])) = false := by
  refine ⟨?_, ?_, ?_, by decide, by decide⟩
  · intro hpq
    rw [AI.callStructuredOutput, AI.callStructuredOutput, hpq]
  · intro v hv
    rw [AI.callStructuredOutput] at hv
    by_cases hb : ((cfg.checkpointer || cfg.memory) && !strTruthy params.threadId) = true
    · rw [if_pos hb] at hv
      simp at hv
    · rw [if_neg hb] at hv
      rcases hcpo : AI.getCheckpointerOutcome cfg construction with e | cp <;>
        rw [hcpo] at hv
      · simp at hv
      · rcases hgm : AI.getModel cfg params.aiModel params.modelConfig with e | client <;>
          rw [hgm] at hv
        · simp at hv
        · rcases hp : p (normalizeSchemaForOpenAI outputSchema params.aiModel)
            with e | sr <;> rw [hp] at hv
          · simp at hv
          · dsimp only at hv
            by_cases hz : zaccepts outputSchema sr = true
            · rw [if_pos hz] at hv
              dsimp only at hv
              injection hv with hv2
              rw [← hv2]
              exact hz
            · rw [if_neg hz] at hv
              dsimp only at hv
              exact Except.noConfusion hv
  · intro v hv hz
    rw [AI.callStructuredOutput]
    by_cases hb : ((cfg.checkpointer || cfg.memory) && !strTruthy params.threadId) = true
    · rw [if_pos hb]
      right
      left
      rfl
    · rw [if_neg hb]
      rcases hcpo : AI.getCheckpointerOutcome cfg construction with e | cp
      · right
        right
        left
        exact ⟨e, rfl⟩
      · rcases hgm : AI.getModel cfg params.aiModel params.modelConfig
          with e | client
        · right
          right
          right
          exact ⟨e, rfl⟩
        · rw [hv]
          left
          dsimp only
          rw [if_neg (by simp [hz])]

/-- Witness for C10: a provider answering the permitted null field makes
the call throw the validation error. -/
theorem c10_structured_output_validation_witness :
    (AI.callStructuredOutput { openAIApiKey := some "k" } { aiModel := "gpt-4" }
        (ZType.zobject [("b", .zoptional .znumber)]) (.ok 1)
        (fun _ => .ok (some (.jobj [("b", .jnull)])))).1 =
      .error (.validation "structured response failed output schema validation") := by
  have h := (c10_structured_output_validation { openAIApiKey := some "k" }
    { aiModel := "gpt-4" } (ZType.zobject [("b", .zoptional .znumber)]) (.ok 1)
    (fun _ => .ok (some (.jobj [("b", .jnull)])))
    (fun _ => .ok (some (.jobj [("b", .jnull)])))).2.2.1
    (some (.jobj [("b", .jnull)])) rfl (by decide)
  rcases h with h | h | ⟨e, h⟩ | ⟨e, h⟩
  · exact h
  · exact rfl
  · exact rfl
  · exact rfl

/-! ### Conversation-history reconstruction

Embedding of `AIMemory.extractMessagesFromHistory`,
`AIMemory.getMessageRole` and `AIMemory.extractContent`
(src/langchain/checkpointers.ts lines 126-202). A checkpoint message is
a loosely-typed record probed for an explicit `role` field, then for the
`getType()` / `_getType()` methods, then for the constructor name
(already lowercased at that fallback). The snapshot `createdAt` may be
absent, in which case the source stamps the current wall-clock time
(`new Date().toISOString()`); the embedding passes an explicit `clock`
indexed by the oldest-first position of the snapshot being processed. -/

inductive ChkBlock where
  | blockString (s : String)
  | blockRecord (text : Option String)

inductive ChkContent where
  | contentString (s : String)
  | contentBlocks (blocks : List ChkBlock)

structure ChkMessage where
  role : Option String := none
  getTypeResult : Option String := none
  underscoreGetTypeResult : Option String := none
  ctorName : Option String := none
  content : Option ChkContent := none

inductive MessageRole where
  | human
  | ai
  | tool
  | system
  deriving DecidableEq, Repr

/-- JavaScript `s.toLowerCase()` on the character list. -/
def jsToLower (s : String) : String :=
  String.mk (s.toList.map Char.toLower)

/-- JavaScript `s.replace("message", "")`: only the first occurrence of
the pattern is removed. -/
def removeFirstSub (pat : List Char) : List Char → List Char
  | [] => []
  | c :: rest =>
    if pat.isPrefixOf (c :: rest) then (c :: rest).drop pat.length
    else c :: removeFirstSub pat rest

def getMessageRole (msg : ChkMessage) : MessageRole :=
  let role := msg.role.map jsToLower
  if role == some "human" || role == some "user" then .human
  else if role == some "ai" || role == some "assistant" then .ai
  else if role == some "tool" then .tool
  else
    let type := ((msg.getTypeResult.orElse fun _ => msg.underscoreGetTypeResult).orElse
      fun _ => msg.ctorName.map jsToLower).getD ""
    let normalized :=
      jsTrim (String.mk (removeFirstSub "message".toList (jsToLower type).toList))
    if normalized == "human" || normalized == "user" then .human
    else if normalized == "ai" || normalized == "assistant" then .ai
    else if normalized == "tool" then .tool
    else .system

def blockText : ChkBlock → String
  | .blockString s => s
  | .blockRecord t => t.getD ""

def extractContent (msg : ChkMessage) : String :=
  match msg.content with
  | some (.contentString s) => s
  | some (.contentBlocks blocks) =>
    String.intercalate "\n" ((blocks.map blockText).filter (fun s => s != ""))
  | none => ""

structure Snapshot where
  valuesMessages : Option (List ChkMessage) := none
  createdAt : Option String := none

/-- The `snapshot.values?.messages ?? []` access. -/
def Snapshot.msgs (s : Snapshot) : List ChkMessage :=
  s.valuesMessages.getD []

structure HistoryMessageItem where
  role : MessageRole
  createdAt : String
  content : String
  deriving DecidableEq, Repr

/-- One loop body iteration of `extractMessagesFromHistory`: a message
classified `system` is skipped, any other becomes a history item carrying
the timestamp of the snapshot that introduced it. -/
def emitItem (createdAt : String) (msg : ChkMessage) : Option HistoryMessageItem :=
  match getMessageRole msg with
  | .system => none
  | r => some { role := r, createdAt := createdAt, content := extractContent msg }

/-- The oldest-first traversal of `extractMessagesFromHistory`: `k` is
the oldest-first position (used to consult the clock when `createdAt` is
absent) and `prevCount` the running count of previously-seen messages;
only the messages beyond it are emitted for each snapshot. -/
def processSnapshots (clock : Nat → String) :
    Nat → Nat → List Snapshot → List HistoryMessageItem
  | _, _, [] => []
  | k, prevCount, s :: rest =>
    ((s.msgs.drop prevCount).filterMap (emitItem (s.createdAt.getD (clock k)))) ++
      processSnapshots clock (k + 1) s.msgs.length rest

/-- Embedding of `AIMemory.extractMessagesFromHistory`: the snapshot
array arrives newest-first and the loop iterates from the last index
down to 0, i.e. over the reversed list. -/
def extractMessagesFromHistory (clock : Nat → String)
    (history : List Snapshot) : List HistoryMessageItem :=
  processSnapshots clock 0 0 history.reverse

/-- Append-only growth along an oldest-first snapshot sequence: each
message list extends the accumulated one. -/
def GrowingFrom : List ChkMessage → List Snapshot → Prop
  | _, [] => True
  | prev, s :: rest => prev <+: s.msgs ∧ GrowingFrom s.msgs rest

/-- The message list of the newest snapshot reachable from `prev` along
an oldest-first sequence. -/
def finalMsgs (prev : List ChkMessage) : List Snapshot → List ChkMessage
  | [] => prev
  | s :: rest => finalMsgs s.msgs rest

def newestMsgs (oldestFirst : List Snapshot) : List ChkMessage :=
  finalMsgs [] oldestFirst

/-- The effective timestamp of the snapshot that originates message
index `j`: the first (oldest) snapshot, in oldest-first order starting
at clock position `k`, whose message list is long enough to contain
`j`. -/
def originTime (clock : Nat → String) : Nat → List Snapshot → Nat → String
  | _, [], _ => ""
  | k, s :: rest, j =>
    if j < s.msgs.length then s.createdAt.getD (clock k)
    else originTime clock (k + 1) rest j

/-- Index-based specification of history extraction: walk every position
of the full (newest) message list in order, skip system messages, and
stamp each remaining one with the timestamp of its originating
snapshot. -/
def specItems (clock : Nat → String) (oldestFirst : List Snapshot) :
    List HistoryMessageItem :=
  (List.range (newestMsgs oldestFirst).length).filterMap fun j =>
    ((newestMsgs oldestFirst)[j]?).bind
      (fun m => emitItem (originTime clock 0 oldestFirst j) m)

lemma prefix_finalMsgs : ∀ (ss : List Snapshot) (prev : List ChkMessage),
    GrowingFrom prev ss → prev <+: finalMsgs prev ss
  | [], _, _ => List.prefix_rfl
  | s :: rest, _, h => h.1.trans (prefix_finalMsgs rest s.msgs h.2)

lemma filterMap_range_getElem {α β : Type} (f : α → Option β) :
    ∀ (n a : Nat) (l : List α), n = l.length - a →
      (List.range' a n).filterMap (fun j => (l[j]?).bind f) =
      (l.drop a).filterMap f
  | 0, a, l, h => by
    have hle : l.length ≤ a := by omega
    rw [List.drop_eq_nil_of_le hle]
    rfl
  | n + 1, a, l, h => by
    have hlt : a < l.length := by omega
    rw [List.range'_succ, List.filterMap_cons, List.drop_eq_getElem_cons hlt,
        List.filterMap_cons]
    have hget : l[a]? = some l[a] := List.getElem?_eq_getElem hlt
    have ih := filterMap_range_getElem f n (a + 1) l (by omega)
    rw [hget, Option.some_bind]
    cases f l[a] <;> simp only [ih]

lemma processSnapshots_eq_spec (clock : Nat → String) :
    ∀ (ss : List Snapshot) (k : Nat) (prev : List ChkMessage), GrowingFrom prev ss →
      processSnapshots clock k prev.length ss =
        (List.range' prev.length ((finalMsgs prev ss).length - prev.length)).filterMap
          (fun j => ((finalMsgs prev ss)[j]?).bind
            (fun m => emitItem (originTime clock k ss j) m))
  | [], k, prev, _ => by
    rw [processSnapshots, finalMsgs]
    simp
  | s :: rest, k, prev, h => by
    have hpre : prev <+: s.msgs := h.1
    have hg : GrowingFrom s.msgs rest := h.2
    have hlen1 : prev.length ≤ s.msgs.length := hpre.length_le
    have hsf : s.msgs <+: finalMsgs s.msgs rest := prefix_finalMsgs rest s.msgs hg
    have hlen2 : s.msgs.length ≤ (finalMsgs s.msgs rest).length := hsf.length_le
    have ih := processSnapshots_eq_spec clock rest (k + 1) s.msgs hg
    rw [processSnapshots, ih]
    show _ = (List.range' prev.length
        ((finalMsgs s.msgs rest).length - prev.length)).filterMap
      (fun j => ((finalMsgs s.msgs rest)[j]?).bind
        (fun m => emitItem (originTime clock k (s :: rest) j) m))
    have hsplit : List.range' prev.length ((finalMsgs s.msgs rest).length - prev.length) =
        List.range' prev.length (s.msgs.length - prev.length) ++
        List.range' s.msgs.length ((finalMsgs s.msgs rest).length - s.msgs.length) := by
      have happ := List.range'_append prev.length (s.msgs.length - prev.length)
        ((finalMsgs s.msgs rest).length - s.msgs.length) 1
      rw [one_mul] at happ
      have h1 : prev.length + (s.msgs.length - prev.length) = s.msgs.length := by omega
      rw [h1] at happ
      rw [happ]
      congr 1
      omega
    rw [hsplit, List.filterMap_append]
    congr 1
    · have hcg : ∀ j ∈ List.range' prev.length (s.msgs.length - prev.length),
          ((finalMsgs s.msgs rest)[j]?).bind
            (fun m => emitItem (originTime clock k (s :: rest) j) m) =
          (s.msgs[j]?).bind (fun m => emitItem (s.createdAt.getD (clock k)) m) := by
        intro j hj
        rw [List.mem_range'_1] at hj
        have hjlt : j < s.msgs.length := by omega
        obtain ⟨t, ht⟩ := hsf
        rw [← ht, List.getElem?_append_left hjlt]
        have hot : originTime clock k (s :: rest) j = s.createdAt.getD (clock k) := by
          rw [originTime, if_pos hjlt]
        rw [hot]
      rw [List.filterMap_congr hcg]
      exact (filterMap_range_getElem (emitItem (s.createdAt.getD (clock k)))
        (s.msgs.length - prev.length) prev.length s.msgs rfl).symm
    · apply List.filterMap_congr
      intro j hj
      rw [List.mem_range'_1] at hj
      have hjge : ¬(j < s.msgs.length) := by omega
      have hot : originTime clock k (s :: rest) j = originTime clock (k + 1) rest j := by
        rw [originTime, if_neg hjge]
      rw [hot]

/-- The role and content carried by a message once emitted, or nothing
for a system message. -/
def roleContent (m : ChkMessage) : Option (MessageRole × String) :=
  match getMessageRole m with
  | .system => none
  | r => some (r, extractContent m)

lemma emitItem_map_roleContent (t : String) (m : ChkMessage) :
    (emitItem t m).map (fun it => (it.role, it.content)) = roleContent m := by
  rw [emitItem, roleContent]
  rcases getMessageRole m with _ | _ | _ | _ <;> rfl

/-- Claim C7: over a newest-first, append-only-growing snapshot
sequence, history extraction equals the index-based specification —
every position of the full (newest) message list is visited exactly once
in oldest-first order, system messages are excluded, and each emitted
item carries the effective timestamp of its originating (oldest
containing) snapshot; consequently the emitted roles and contents are
exactly the non-system projection of the full message list. -/
theorem c7_history_reconstruction (clock : Nat → String) (history : List Snapshot)
    (h : GrowingFrom [] history.reverse) :
    extractMessagesFromHistory clock history = specItems clock history.reverse ∧
    (extractMessagesFromHistory clock history).map (fun it => (it.role, it.content)) =
      (newestMsgs history.reverse).filterMap roleContent := by
  have hmain : processSnapshots clock 0 0 history.reverse =
      (List.range' 0 ((newestMsgs history.reverse).length - 0)).filterMap
        (fun j => ((newestMsgs history.reverse)[j]?).bind
          (fun m => emitItem (originTime clock 0 history.reverse j) m)) :=
    processSnapshots_eq_spec clock history.reverse 0 [] h
  have hfirst : extractMessagesFromHistory clock history = specItems clock history.reverse := by
    rw [extractMessagesFromHistory, specItems]
    rw [hmain, List.range_eq_range', Nat.sub_zero]
  refine ⟨hfirst, ?_⟩
  rw [hfirst, specItems, List.map_filterMap]
  have hcg : ∀ j ∈ List.range (newestMsgs history.reverse).length,
      Option.map (fun it => (it.role, it.content))
        (((newestMsgs history.reverse)[j]?).bind
          (fun m => emitItem (originTime clock 0 history.reverse j) m)) =
      ((newestMsgs history.reverse)[j]?).bind roleContent := by
    intro j hj
    rcases hF : (newestMsgs history.reverse)[j]? with _ | m
    · rfl
    · rw [Option.some_bind, Option.some_bind]
      exact emitItem_map_roleContent _ m
  rw [List.filterMap_congr hcg, List.range_eq_range']
  have hfin := filterMap_range_getElem roleContent
    (newestMsgs history.reverse).length 0 (newestMsgs history.reverse) (by omega)
  rw [hfin, List.drop_zero]

/-- Messages and snapshots for the C7 and C8 witnesses: snapshot 1 with
one message, snapshot 2 with two messages extending it. -/
def wUserMsg : ChkMessage :=
  { role := some "user", content := some (.contentString "hi") }

def wAsstMsg : ChkMessage :=
  { role := some "assistant", content := some (.contentString "yo") }

def wSnapOld : Snapshot :=
  { valuesMessages := some [wUserMsg], createdAt := some "t1" }

def wSnapNew : Snapshot :=
  { valuesMessages := some [wUserMsg, wAsstMsg], createdAt := some "t2" }

/-- Witness for C7: the two-snapshot sequence of the spec test —
snapshot 1 with one message, snapshot 2 with two messages extending it,
given newest-first. -/
theorem c7_history_reconstruction_witness :
    extractMessagesFromHistory (fun _ => "now") [wSnapNew, wSnapOld] =
      specItems (fun _ => "now") ([wSnapNew, wSnapOld] : List Snapshot).reverse ∧
    (extractMessagesFromHistory (fun _ => "now") [wSnapNew, wSnapOld]).map
        (fun it => (it.role, it.content)) =
      (newestMsgs ([wSnapNew, wSnapOld] : List Snapshot).reverse).filterMap
        roleContent := by
  apply c7_history_reconstruction
  exact ⟨List.nil_prefix, ⟨[wAsstMsg], rfl⟩, trivial⟩

/-- Counterexample to Claim C8 as stated: a snapshot lacking `createdAt`
is stamped with the wall-clock time of the run, so two runs of the
reconstruction over the same fixed snapshot sequence at different
instants produce different outputs. -/
theorem c8_counterexample :
    extractMessagesFromHistory (fun _ => "2024-01-01T00:00:00.000Z")
        [{ valuesMessages := some
            [{ role := some "user", content := some (.contentString "hi") }] }] ≠
      extractMessagesFromHistory (fun _ => "2024-01-02T00:00:00.000Z")
        [{ valuesMessages := some
            [{ role := some "user", content := some (.contentString "hi") }] }] := by
  decide

lemma processSnapshots_clock_irrelevant (c1 c2 : Nat → String) :
    ∀ (ss : List Snapshot), (∀ s ∈ ss, s.createdAt.isSome = true) →
      ∀ (k1 k2 prevCount : Nat),
        processSnapshots c1 k1 prevCount ss = processSnapshots c2 k2 prevCount ss
  | [], _, _, _, _ => rfl
  | s :: rest, h, k1, k2, prevCount => by
    rw [processSnapshots, processSnapshots]
    obtain ⟨t, ht⟩ := Option.isSome_iff_exists.1 (h s (List.mem_cons_self s rest))
    rw [ht]
    simp only [Option.getD_some]
    rw [processSnapshots_clock_irrelevant c1 c2 rest
      (fun x hx => h x (List.mem_cons_of_mem s hx)) (k1 + 1) (k2 + 1) s.msgs.length]

/-- Claim C8, amended: reconstruction is a pure function of the snapshot
sequence — two runs with no intervening writes yield identical output —
provided every snapshot carries a creation timestamp; a snapshot lacking
`createdAt` is stamped with the wall-clock time of the run, which may
differ between the two runs. -/
theorem c8_reconstruction_pure (history : List Snapshot)
    (h : ∀ s ∈ history, s.createdAt.isSome = true) :
    ∀ clock1 clock2, extractMessagesFromHistory clock1 history =
      extractMessagesFromHistory clock2 history := by
  intro c1 c2
  rw [extractMessagesFromHistory, extractMessagesFromHistory]
  exact processSnapshots_clock_irrelevant c1 c2 history.reverse
    (fun s hs => h s (List.mem_reverse.1 hs)) 0 0 0

/-- Witness for C8 amended: on a snapshot sequence whose entries all
carry timestamps, two runs under different clocks agree. -/
theorem c8_reconstruction_pure_witness :
    extractMessagesFromHistory (fun _ => "A")
        [{ valuesMessages := some
            [{ role := some "user", content := some (.contentString "hi") }]
           createdAt := some "t1" }] =
      extractMessagesFromHistory (fun _ => "B")
        [{ valuesMessages := some
            [{ role := some "user", content := some (.contentString "hi") }]
           createdAt := some "t1" }] := by
  apply c8_reconstruction_pure
  intro s hs
  rw [List.mem_singleton] at hs
  subst hs
  rfl

end AIPkg
